import Mathlib

/-
Verification of the schempy interpreter (src/main.py): a minimal Scheme
interpreter consisting of a tokenizer, a recursive-descent parser, an
environment chain, a trampolined evaluator and a printer.

The embedding below is a direct translation of src/main.py.  Python values
are modelled by the closed sum type `Value`, parsed trees by `Expr`, and the
mutable environment chain by a heap (`Heap`): an environment is an index
into a list of frames, and every mutation (`define`, `set!`, the creation of
a call environment) is an explicit heap update.  Python exceptions are
modelled by the `Err` type; Python floats are modelled by exact rationals
(IEEE rounding is not modelled — no claim below exercises float
arithmetic).  The evaluator takes two fuel parameters:
`gas` bounds the number of trampoline loop iterations plus recursive calls
(an artifact of embedding Python's unbounded `while True` loop — running
out of gas corresponds to a longer run, never to a different result), and
`depth` bounds the depth of genuinely recursive `evaluate` calls, i.e. the
host call stack that the Python code consumes; exhausting `depth` models
Python's RecursionError.  Crucially, the two tail positions of the source
(the selected `if` branch, line 161, and the application of a user
Procedure, lines 178-180) continue the loop without consuming `depth`,
exactly as the Python `while` loop rewrites `x` and `env` in place.
-/

namespace Schempy

/-- Errors: Python exception classes that the interpreter can raise, plus
bookkeeping artifacts of the embedding (`outOfGas`, `badRef`,
`notModeled`) that correspond to no Python behaviour and are unreachable
on the runs the theorems below describe. -/
inductive Err
  | syntaxError (msg : String) -- Python SyntaxError (raised at lines 87 and 96)
  | indexError                 -- Python IndexError (unguarded x[0] / tokens[0])
  | valueError                 -- Python ValueError (tuple unpacking of the wrong length)
  | typeError                  -- Python TypeError (not callable, unhashable key, bad operands)
  | attributeError             -- Python AttributeError (None.find at line 18)
  | zeroDivisionError          -- Python ZeroDivisionError
  | recursionError             -- Python RecursionError: host call stack exhausted
  | outOfGas                   -- artifact: loop-iteration fuel exhausted (the Python loop just keeps running)
  | badRef                     -- artifact: dangling heap reference, unreachable for heaps this evaluator builds
  | notModeled                 -- artifact: host feature outside the embedding (lazy map objects, float repr)
  deriving DecidableEq

/-- Expression tree produced by the parser (lines 80-98): a Python int,
float or str atom, or a Python list of subtrees.  The same type doubles as
quoted runtime data, as in the source, via `exprToValue` below. -/
inductive Expr
  | int (n : Int)
  | float (q : Rat)
  | sym (s : String)
  | list (es : List Expr)

/-- The host-native procedures installed by standard_env (lines 30-68).
`add` is bound both to "+" and to "append", and `eqv` both to "=" and to
"equal?", because the source binds the same host function to both names. -/
inductive Prim
  | add | sub | mul | div
  | gt | lt | eqv | ge | le
  | absP | car | cdr | isIdent
  | mapP | maxP | minP | notP
  | expt | cons | listP | isList | isNull
  | applyP | beginP | printP | roundP
  | lengthP | isNumber | isSymbol | isProcedure
  deriving DecidableEq

/-- Runtime values: numbers, booleans (produced by the comparison
primitives), symbols, lists, user procedures (`closure`, class Procedure of
lines 20-28, whose environment is a heap reference), host primitives, and
Python's None (`noneVal`, the result of `define` and `set!`). -/
inductive Value
  | int (n : Int)
  | float (q : Rat)
  | bool (b : Bool)
  | sym (s : String)
  | list (vs : List Value)
  | closure (params : Expr) (body : Expr) (env : Nat)
  | prim (p : Prim)
  | noneVal

/-- One environment (class Env, lines 10-18): an insertion-ordered mapping
plus an optional outer reference.  Keys are kept as `Expr` because the
source indexes the dict with the raw operand `x[1]` of `define`/`set!`,
which need not be a string. -/
structure Frame where
  bindings : List (Expr × Value)
  outer : Option Nat

/-- The store of all environments ever created; an environment reference is
an index into this list.  Frames are appended at creation and updated in
place by `define`/`set!`, mirroring Python object mutation. -/
abbrev Heap := List Frame

/-- Equality of dictionary keys, as Python `==` compares the hashable atoms
that can actually be stored (a list key is rejected before insertion, see
`hashableKey`).  Python's cross-kind numeric equality 1 == 1.0 is mirrored
via the rational cast. -/
def keyEq : Expr → Expr → Bool
  | .int a, .int b => a == b
  | .float a, .float b => a == b
  | .int a, .float b => (a : Rat) == b
  | .float a, .int b => a == (b : Rat)
  | .sym a, .sym b => a == b
  | _, _ => false

/-- Whether a value may be a dict key: Python lists are unhashable and make
dict insertion or membership raise TypeError. -/
def hashableKey : Expr → Bool
  | .list _ => false
  | _ => true

/-- First value bound to a key in an insertion-ordered mapping. -/
def dictGet (k : Expr) : List (Expr × Value) → Option Value
  | [] => Option.none
  | (k2, v) :: rest => if keyEq k2 k then some v else dictGet k rest

/-- Membership test, Python `var in self` (line 18). -/
def dictHas (k : Expr) (l : List (Expr × Value)) : Bool :=
  (dictGet k l).isSome

/-- Insert or overwrite, Python `d[k] = v`: an existing key keeps its
position (and its original key object), a new key is appended. -/
def dictSet (k : Expr) (v : Value) : List (Expr × Value) → List (Expr × Value)
  | [] => [(k, v)]
  | (k2, v2) :: rest =>
    if keyEq k2 k then (k2, v) :: rest else (k2, v2) :: dictSet k v rest

/-- Env.find (lines 16-18): walk outward to the innermost frame whose dict
contains the key; return its heap reference.  When the chain is exhausted
the source calls `.find` on `None`, which raises AttributeError — the
unguarded traversal past the root.  The fuel argument is an embedding
artifact: every heap built by this evaluator has strictly decreasing outer
references, so `heap.length + 1` steps always suffice. -/
def findRef : Nat → Heap → Nat → Expr → Except Err Nat
  | 0, _, _, _ => .error .outOfGas
  | fuel + 1, h, r, k =>
    if hashableKey k = false then .error .typeError
    else
      match h[r]? with
      | Option.none => .error .badRef
      | some fr =>
        if dictHas k fr.bindings then .ok r
        else
          match fr.outer with
          | some r2 => findRef fuel h r2 k
          | Option.none => .error .attributeError

/-- Variable reference, line 156: `env.find(x)[x]`. -/
def lookupVar (h : Heap) (r : Nat) (s : String) : Except Err Value := do
  let rf ← findRef (h.length + 1) h r (Expr.sym s)
  match h[rf]? with
  | some fr =>
    match dictGet (Expr.sym s) fr.bindings with
    | some v => .ok v
    | Option.none => .error .badRef
  | Option.none => .error .badRef

/-- The `define` store, line 164: `env[symbol] = value` on the current
frame.  A list key raises TypeError (unhashable), as in Python. -/
def envDefine (h : Heap) (r : Nat) (k : Expr) (v : Value) : Except Err Heap :=
  if hashableKey k = false then .error .typeError
  else
    match h[r]? with
    | some fr => .ok (h.set r ⟨dictSet k v fr.bindings, fr.outer⟩)
    | Option.none => .error .badRef

/-- The `set!` store, line 170: `env.find(symbol)[symbol] = value` mutates
the innermost frame that already binds the key. -/
def envAssign (h : Heap) (r : Nat) (k : Expr) (v : Value) : Except Err Heap := do
  let rf ← findRef (h.length + 1) h r k
  match h[rf]? with
  | some fr => .ok (h.set rf ⟨dictSet k v fr.bindings, fr.outer⟩)
  | Option.none => .error .badRef

/-- The pairs produced by `zip(params, args)` in Env.__init__ (line 13).
Python's zip truncates to the shorter sequence; zipping a string iterates
its characters; zipping a number raises TypeError (not iterable). -/
def zipParams : Expr → List Value → Except Err (List (Expr × Value))
  | .list ps, args => .ok (ps.zip args)
  | .sym s, args => .ok ((s.toList.map fun c => Expr.sym (String.mk [c])).zip args)
  | _, _ => .error .typeError

/-- Fold the zipped pairs into a fresh dict, as `self.update(zip(...))`
does: left to right, later duplicates overwriting, unhashable keys
raising TypeError. -/
def insertPairs (acc : List (Expr × Value)) : List (Expr × Value) → Except Err (List (Expr × Value))
  | [] => .ok acc
  | (k, v) :: rest =>
    if hashableKey k then insertPairs (dictSet k v acc) rest
    else .error .typeError

/-- Env.__init__ (lines 12-14): the frame of a procedure call, binding
parameter names to argument values with the given outer environment. -/
def envInit (params : Expr) (args : List Value) (outer : Option Nat) : Except Err Frame := do
  let prs ← zipParams params args
  let b ← insertPairs [] prs
  .ok ⟨b, outer⟩

mutual

/-- Quoted source trees become runtime values unchanged (in the source they
are literally the same Python objects); this is the identity embedding of
`Expr` into `Value`. -/
def exprToValue : Expr → Value
  | .int n => .int n
  | .float q => .float q
  | .sym s => .sym s
  | .list es => .list (exprToValueList es)

/-- List part of `exprToValue`. -/
def exprToValueList : List Expr → List Value
  | [] => []
  | e :: es => exprToValue e :: exprToValueList es

end

/-- Python truthiness, as the evaluator applies it to the test of an `if`
(line 161) and `not` applies it via op.not_: False, numeric zero, the
empty string, the empty list and None are falsy; everything else,
procedures included, is truthy. -/
def truthy : Value → Bool
  | .bool b => b
  | .int n => n != 0
  | .float q => q != 0
  | .sym s => s != ""
  | .list vs => !vs.isEmpty
  | .noneVal => false
  | .closure _ _ _ => true
  | .prim _ => true

/-- Numeric view: Python bools are ints (isinstance(True, int) holds),
ints embed into rationals, floats are rationals. -/
def numVal : Value → Option Rat
  | .int n => some (n : Rat)
  | .float q => some q
  | .bool b => some (if b then 1 else 0)
  | _ => Option.none

/-- Int view, for operations that stay in int when both operands are
int-like (int or bool). -/
def intVal : Value → Option Int
  | .int n => some n
  | .bool b => some (if b then 1 else 0)
  | _ => Option.none

/-- Whether a value is a Python float (forces a float result in arithmetic). -/
def isFloat : Value → Bool
  | .float _ => true
  | _ => false

/-- op.add, also bound as "append": numeric addition, string concatenation
or list concatenation; other operand shapes raise TypeError. -/
def primAdd : Value → Value → Except Err Value
  | .sym a, .sym b => .ok (.sym (a ++ b))
  | .list a, .list b => .ok (.list (a ++ b))
  | a, b =>
    match intVal a, intVal b with
    | some x, some y => .ok (.int (x + y))
    | _, _ =>
      match numVal a, numVal b with
      | some x, some y => .ok (.float (x + y))
      | _, _ => .error .typeError

/-- op.sub: numeric only (ints stay int, a float operand gives float). -/
def primSub : Value → Value → Except Err Value
  | a, b =>
    match intVal a, intVal b with
    | some x, some y => .ok (.int (x - y))
    | _, _ =>
      match numVal a, numVal b with
      | some x, some y => .ok (.float (x - y))
      | _, _ => .error .typeError

/-- op.mul: numeric only.  Python's sequence repetition (str * int,
list * int) is outside every claim and is not modelled. -/
def primMul : Value → Value → Except Err Value
  | a, b =>
    match intVal a, intVal b with
    | some x, some y => .ok (.int (x * y))
    | _, _ =>
      match numVal a, numVal b with
      | some x, some y => .ok (.float (x * y))
      | _, _ => .error .typeError

/-- op.truediv: always a float in Python; division by zero raises.
The quotient is exact here, where Python would round to the nearest
double — no claim divides. -/
def primDiv : Value → Value → Except Err Value
  | a, b =>
    match numVal a, numVal b with
    | some x, some y => if y = 0 then .error .zeroDivisionError else .ok (.float (x / y))
    | _, _ => .error .typeError

/-- op.lt: numeric or string comparison; Python raises TypeError on other
mixes.  List-list ordering exists in Python but is outside every claim and
is not modelled. -/
def primLt : Value → Value → Except Err Value
  | .int a, .int b => .ok (.bool (decide (a < b)))
  | .sym a, .sym b => .ok (.bool (decide (a < b)))
  | a, b =>
    match numVal a, numVal b with
    | some x, some y => .ok (.bool (decide (x < y)))
    | _, _ => .error .typeError

/-- op.le, structured like `primLt`. -/
def primLe : Value → Value → Except Err Value
  | .int a, .int b => .ok (.bool (decide (a ≤ b)))
  | .sym a, .sym b => .ok (.bool (decide (a < b) || a == b))
  | a, b =>
    match numVal a, numVal b with
    | some x, some y => .ok (.bool (decide (x ≤ y)))
    | _, _ => .error .typeError

mutual

/-- Python `==` (op.eq, bound as "=" and "equal?"): structural equality,
with numeric values compared across kinds.  CPython compares closures and
builtins by object identity; the embedding has no object identities, so
distinct-looking callables compare unequal — no claim exercises this. -/
def valueBeq : Value → Value → Bool
  | a, b =>
    match numVal a, numVal b with
    | some x, some y => x == y
    | _, _ =>
      match a, b with
      | .sym x, .sym y => x == y
      | .noneVal, .noneVal => true
      | .list xs, .list ys => valueBeqList xs ys
      | _, _ => false

/-- List part of `valueBeq`. -/
def valueBeqList : List Value → List Value → Bool
  | [], [] => true
  | x :: xs, y :: ys => valueBeq x y && valueBeqList xs ys
  | _, _ => false

end

/-- Largest of a list of numeric values, for Python max. -/
def maxNum : Rat → List Value → Except Err Rat
  | acc, [] => .ok acc
  | acc, v :: vs =>
    match numVal v with
    | some x => maxNum (max acc x) vs
    | Option.none => .error .typeError

/-- Smallest of a list of numeric values, for Python min. -/
def minNum : Rat → List Value → Except Err Rat
  | acc, [] => .ok acc
  | acc, v :: vs =>
    match numVal v with
    | some x => minNum (min acc x) vs
    | Option.none => .error .typeError

/-- The pure host primitives of standard_env (lines 34-67): everything
except `apply`, `map` and `print`, which the evaluator handles because
they re-enter evaluation or perform IO.  Deviations, all outside every
claim: `eq?` (object identity, op.is_) is approximated by structural
equality on immutable atoms and False on composites; `max`/`min` compare
numerically only; `round` on a float (banker's rounding) and float
`expt` results are not modelled. -/
def primApply (p : Prim) (args : List Value) : Except Err Value :=
  match p, args with
  | .add, [a, b] => primAdd a b
  | .sub, [a, b] => primSub a b
  | .mul, [a, b] => primMul a b
  | .div, [a, b] => primDiv a b
  | .gt, [a, b] => primLt b a
  | .lt, [a, b] => primLt a b
  | .ge, [a, b] => primLe b a
  | .le, [a, b] => primLe a b
  | .eqv, [a, b] => .ok (.bool (valueBeq a b))
  | .absP, [a] =>
    (match intVal a with
     | some x => .ok (.int x.natAbs)
     | Option.none =>
       match a with
       | .float q => .ok (.float (abs q))
       | _ => .error .typeError)
  | .car, [.list (v :: _)] => .ok v
  | .car, [.list []] => .error .indexError
  | .car, [.sym s] =>
    (match s.toList with
     | c :: _ => .ok (.sym (String.mk [c]))
     | [] => .error .indexError)
  | .car, [_] => .error .typeError
  | .cdr, [.list vs] => .ok (.list (vs.drop 1))
  | .cdr, [.sym s] => .ok (.sym (String.mk (s.toList.drop 1)))
  | .cdr, [_] => .error .typeError
  | .isIdent, [a, b] =>
    (match a, b with
     | .int x, .int y => .ok (.bool (x == y))
     | .sym x, .sym y => .ok (.bool (x == y))
     | .bool x, .bool y => .ok (.bool (x == y))
     | .noneVal, .noneVal => .ok (.bool true)
     | _, _ => .ok (.bool false))
  | .maxP, [.list (v :: vs)] =>
    (match numVal v with
     | some x => do let m ← maxNum x vs; .ok (if m.den = 1 then .int m.num else .float m)
     | Option.none => .error .typeError)
  | .maxP, [.list []] => .error .valueError
  | .maxP, a :: b :: rest =>
    (match numVal a with
     | some x => do let m ← maxNum x (b :: rest); .ok (if m.den = 1 then .int m.num else .float m)
     | Option.none => .error .typeError)
  | .minP, [.list (v :: vs)] =>
    (match numVal v with
     | some x => do let m ← minNum x vs; .ok (if m.den = 1 then .int m.num else .float m)
     | Option.none => .error .typeError)
  | .minP, [.list []] => .error .valueError
  | .minP, a :: b :: rest =>
    (match numVal a with
     | some x => do let m ← minNum x (b :: rest); .ok (if m.den = 1 then .int m.num else .float m)
     | Option.none => .error .typeError)
  | .notP, [a] => .ok (.bool (!truthy a))
  | .expt, [a, b] =>
    (match intVal a, intVal b with
     | some x, some y =>
       if 0 ≤ y then .ok (.int (x ^ y.toNat))
       else if x = 0 then .error .zeroDivisionError
       else .error .notModeled
     | _, _ => .error .notModeled)
  | .cons, [x, .list ys] => .ok (.list (x :: ys))
  | .cons, [_, _] => .error .typeError
  | .listP, vs => .ok (.list vs)
  | .isList, [.list _] => .ok (.bool true)
  | .isList, [_] => .ok (.bool false)
  | .isNull, [v] => .ok (.bool (valueBeq v (.list [])))
  | .beginP, vs =>
    (match vs.getLast? with
     | some v => .ok v
     | Option.none => .error .indexError)
  | .roundP, [a] =>
    (match intVal a with
     | some x => .ok (.int x)
     | Option.none => .error .notModeled)
  | .lengthP, [.list vs] => .ok (.int vs.length)
  | .lengthP, [.sym s] => .ok (.int s.length)
  | .lengthP, [_] => .error .typeError
  | .isNumber, [v] => .ok (.bool (numVal v).isSome)
  | .isSymbol, [.sym _] => .ok (.bool true)
  | .isSymbol, [_] => .ok (.bool false)
  | .isProcedure, [.closure _ _ _] => .ok (.bool true)
  | .isProcedure, [.prim _] => .ok (.bool true)
  | .isProcedure, [_] => .ok (.bool false)
  | _, _ => .error .typeError

mutual

/-- The evaluator (lines 114-182).  `gas` and `depth` are the two fuels
described at the top of the file.  The `while True` loop of the source is
the tail recursion at the same `depth`: the selected `if` branch
(line 161) and the body of an applied Procedure (lines 178-180) re-enter
`evaluate` with `depth` unchanged, every other re-entry (the test of an
`if`, the operand of `define`/`set!`, list elements at line 176, and
`Procedure.__call__`) is a genuine recursive call and takes `depth - 1`. -/
def evaluate (gas depth : Nat) (x : Expr) (r : Nat) (h : Heap) :
    Except Err (Value × Heap) :=
  match gas, x with
  | 0, _ => .error .outOfGas
  | _ + 1, .sym s => do
    let v ← lookupVar h r s
    .ok (v, h)
  | _ + 1, .int n => .ok (.int n, h)
  | _ + 1, .float q => .ok (.float q, h)
  | _ + 1, .list [] => .error .indexError
  | gas + 1, .list (x0 :: rest) =>
    match x0, rest with
    | .sym "if", [test, conseq, alt] =>
      if depth = 0 then .error .recursionError
      else do
        let (tv, h2) ← evaluate gas (depth - 1) test r h
        evaluate gas depth (if truthy tv then conseq else alt) r h2
    | .sym "if", _ => .error .valueError
    | .sym "define", [key, exp] =>
      if depth = 0 then .error .recursionError
      else do
        let (v, h2) ← evaluate gas (depth - 1) exp r h
        let h3 ← envDefine h2 r key v
        .ok (.noneVal, h3)
    | .sym "define", _ => .error .valueError
    | .sym "quote", _ => .ok (.list (exprToValueList rest), h)
    | .sym "set!", [key, exp] =>
      if depth = 0 then .error .recursionError
      else do
        let (v, h2) ← evaluate gas (depth - 1) exp r h
        let h3 ← envAssign h2 r key v
        .ok (.noneVal, h3)
    | .sym "set!", _ => .error .valueError
    | .sym "lambda", [params, body] => .ok (.closure params body r, h)
    | .sym "lambda", _ => .error .valueError
    | _, _ => do
      let (vs, h2) ← evalElems gas depth (x0 :: rest) r h
      match vs with
      | [] => .error .badRef
      | proc :: args =>
        match proc with
        | .closure params body envr =>
          match envInit params args (some envr) with
          | .ok fr => evaluate gas depth body h2.length (h2 ++ [fr])
          | .error e => .error e
        | _ => callValue gas depth proc args h2
  termination_by structural gas

/-- The list comprehension of line 176: evaluate every element of the form
left to right, threading the heap.  Each element is a recursive
`evaluate` call. -/
def evalElems (gas depth : Nat) (xs : List Expr) (r : Nat) (h : Heap) :
    Except Err (List Value × Heap) :=
  match gas, xs with
  | 0, _ => .error .outOfGas
  | _ + 1, [] => .ok ([], h)
  | gas + 1, e :: es =>
    if depth = 0 then .error .recursionError
    else do
      let (v, h2) ← evaluate gas (depth - 1) e r h
      let (vs, h3) ← evalElems gas depth es r h2
      .ok (v :: vs, h3)
  termination_by structural gas

/-- The call `proc(*args)` (line 182), the callable interface that host
code such as the `apply` primitive also uses.  On a Procedure this is
Procedure.__call__ (lines 27-28): a fresh recursive `evaluate` of the body
in a new Env — it consumes host stack, hence `depth - 1`.  On a
non-callable value Python raises TypeError.  `map` returns a lazy host
iterator and is not modelled; `print` writes to stdout (not modelled) and
returns None. -/
def callValue (gas depth : Nat) (v : Value) (args : List Value) (h : Heap) :
    Except Err (Value × Heap) :=
  match gas, v with
  | 0, _ => .error .outOfGas
  | gas + 1, .closure params body envr =>
    if depth = 0 then .error .recursionError
    else
      match envInit params args (some envr) with
      | .ok fr => evaluate gas (depth - 1) body h.length (h ++ [fr])
      | .error e => .error e
  | gas + 1, .prim .applyP =>
    (match args with
     | [f, .list vs] =>
       if depth = 0 then .error .recursionError
       else callValue gas (depth - 1) f vs h
     | [f, .sym s] =>
       if depth = 0 then .error .recursionError
       else callValue gas (depth - 1) f (s.toList.map fun c => .sym (String.mk [c])) h
     | _ => .error .typeError)
  | _ + 1, .prim .mapP => .error .notModeled
  | _ + 1, .prim .printP => .ok (.noneVal, h)
  | _ + 1, .prim p =>
    (match primApply p args with
     | .ok v2 => .ok (v2, h)
     | .error e => .error e)
  | _ + 1, _ => .error .typeError
  termination_by structural gas

end

/-- The explicit procedure table of standard_env (lines 34-67), in source
order.  The preceding `env.update(vars(math))` (line 33) installs the host
math module's IEEE transcendental functions and constants; no claim
touches any of them and they are omitted here.  "append" is op.add and
"=" and "equal?" are both op.eq, exactly as the source binds one host
function under two names. -/
def stdBindings : List (Expr × Value) :=
  [ (.sym "+", .prim .add)
  , (.sym "-", .prim .sub)
  , (.sym "*", .prim .mul)
  , (.sym "/", .prim .div)
  , (.sym ">", .prim .gt)
  , (.sym "<", .prim .lt)
  , (.sym "=", .prim .eqv)
  , (.sym ">=", .prim .ge)
  , (.sym "<=", .prim .le)
  , (.sym "abs", .prim .absP)
  , (.sym "car", .prim .car)
  , (.sym "cdr", .prim .cdr)
  , (.sym "eq?", .prim .isIdent)
  , (.sym "map", .prim .mapP)
  , (.sym "max", .prim .maxP)
  , (.sym "min", .prim .minP)
  , (.sym "not", .prim .notP)
  , (.sym "expt", .prim .expt)
  , (.sym "cons", .prim .cons)
  , (.sym "list", .prim .listP)
  , (.sym "list?", .prim .isList)
  , (.sym "null?", .prim .isNull)
  , (.sym "apply", .prim .applyP)
  , (.sym "begin", .prim .beginP)
  , (.sym "print", .prim .printP)
  , (.sym "round", .prim .roundP)
  , (.sym "append", .prim .add)
  , (.sym "equal?", .prim .eqv)
  , (.sym "length", .prim .lengthP)
  , (.sym "number?", .prim .isNumber)
  , (.sym "symbol?", .prim .isSymbol)
  , (.sym "procedure?", .prim .isProcedure) ]

/-- The root environment, global_env (line 70): the standard procedure
table with no outer environment. -/
def stdFrame : Frame := ⟨stdBindings, Option.none⟩

/-- The initial heap: only the root environment exists. -/
def stdHeap : Heap := [stdFrame]

/-- Character-level form of `chars.replace("(", " ( ").replace(")", " ) ")`
(line 78): pad every parenthesis with spaces. -/
def padParens : List Char → List Char
  | [] => []
  | c :: cs =>
    if c = '(' then ' ' :: '(' :: ' ' :: padParens cs
    else if c = ')' then ' ' :: ')' :: ' ' :: padParens cs
    else c :: padParens cs

/-- Python str.split() with no separator: split on runs of whitespace,
producing no empty tokens.  The accumulator holds the current token's
characters in reverse. -/
def splitWsAux : List Char → List Char → List String
  | [], acc => if acc.isEmpty then [] else [String.mk acc.reverse]
  | c :: cs, acc =>
    if c.isWhitespace then
      if acc.isEmpty then splitWsAux cs []
      else String.mk acc.reverse :: splitWsAux cs []
    else splitWsAux cs (c :: acc)

/-- The lexer, tokenize (lines 72-78). -/
def tokenize (s : String) : List String :=
  splitWsAux (padParens s.toList) []

/-- Digit run to number, for the atom classifier. -/
def digitsToNat : List Char → Nat → Nat
  | [], acc => acc
  | c :: cs, acc => digitsToNat cs (10 * acc + (c.toNat - 48))

/-- Python int(token) on the tokens this lexer can produce: an optional
sign followed by one or more decimal digits.  (Python also accepts
underscores between digits; no claim lexes such a token and they are
classified as symbols here.) -/
def strToInt : List Char → Option Int
  | [] => Option.none
  | '-' :: cs =>
    if cs ≠ [] ∧ cs.all Char.isDigit then some (-(digitsToNat cs 0 : Int)) else Option.none
  | '+' :: cs =>
    if cs ≠ [] ∧ cs.all Char.isDigit then some (digitsToNat cs 0 : Int) else Option.none
  | cs =>
    if cs.all Char.isDigit then some (digitsToNat cs 0 : Int) else Option.none

/-- Split a digit run from the front. -/
def spanDigits : List Char → List Char × List Char
  | [] => ([], [])
  | c :: cs =>
    if c.isDigit then
      let (ds, rest) := spanDigits cs
      (c :: ds, rest)
    else ([], c :: cs)

/-- The decimal part of Python float(token): digits with an optional point
(at least one digit overall), returning (numerator, power-of-ten scale). -/
def floatMantissa : List Char → Option (Nat × Nat)
  | cs =>
    let (ip, rest) := spanDigits cs
    match rest with
    | [] => if ip ≠ [] then some (digitsToNat ip 0, 0) else Option.none
    | '.' :: rest2 =>
      let (fp, rest3) := spanDigits rest2
      if rest3 = [] ∧ (ip ≠ [] ∨ fp ≠ []) then
        some (digitsToNat (ip ++ fp) 0, fp.length)
      else Option.none
    | _ => Option.none

/-- Python float(token), restricted to finite decimal notation with an
optional exponent: sign, digits with an optional point, and e/E with a
signed digit exponent.  Python additionally accepts "inf"/"nan" spellings
(not representable as rationals) — no claim lexes such a token and they
are classified as symbols here. -/
def strToFloat : List Char → Option Rat
  | [] => Option.none
  | cs =>
    let (neg, cs2) :=
      match cs with
      | '-' :: rest => (true, rest)
      | '+' :: rest => (false, rest)
      | rest => (false, rest)
    let eSplit : List Char × Option (List Char) :=
      match cs2.span (fun c => c ≠ 'e' ∧ c ≠ 'E') with
      | (pre, []) => (pre, Option.none)
      | (pre, _ :: post) => (pre, some post)
    match floatMantissa eSplit.1 with
    | Option.none => Option.none
    | some (m, scale) =>
      let applySign : Rat → Option Rat := fun q => some (if neg then -q else q)
      match eSplit.2 with
      | Option.none => applySign ((m : Rat) / ((10 : Rat) ^ scale))
      | some expCs =>
        let (eneg, eds) :=
          match expCs with
          | '-' :: rest => (true, rest)
          | '+' :: rest => (false, rest)
          | rest => (false, rest)
        if eds ≠ [] ∧ eds.all Char.isDigit then
          let e := digitsToNat eds 0
          let base := (m : Rat) / ((10 : Rat) ^ scale)
          applySign (if eneg then base / ((10 : Rat) ^ e) else base * ((10 : Rat) ^ e))
        else Option.none

/-- The atom classifier (lines 100-108): try int, then float, else the
token is a symbol. -/
def atom (t : String) : Expr :=
  match strToInt t.toList with
  | some n => .int n
  | Option.none =>
    match strToFloat t.toList with
    | some q => .float q
    | Option.none => .sym t

mutual

/-- tokens_to_syntax_tree (lines 80-98) on the unread remainder of the
token stream.  The fuel is an embedding artifact of the source's
mutable-list recursion; `parse` supplies more than any input can consume.
An empty stream raises SyntaxError "unexpected EOF" (line 87), a stray
close-parenthesis raises SyntaxError "unexpected )" (line 96). -/
def readExpr (fuel : Nat) (toks : List String) : Except Err (Expr × List String) :=
  match fuel, toks with
  | 0, _ => .error .outOfGas
  | _ + 1, [] => .error (.syntaxError "unexpected EOF")
  | fuel + 1, t :: ts =>
    if t = "(" then do
      let (es, ts2) ← readListItems fuel ts
      .ok (.list es, ts2)
    else if t = ")" then .error (.syntaxError "unexpected )")
    else .ok (atom t, ts)
  termination_by structural fuel

/-- The `while tokens[0] != ")"` loop of lines 91-93: collect
subexpressions until a close-parenthesis, which is then consumed.  When
the stream runs out mid-list, the source indexes `tokens[0]` on an empty
list, so the loop raises IndexError — not SyntaxError. -/
def readListItems (fuel : Nat) (toks : List String) :
    Except Err (List Expr × List String) :=
  match fuel, toks with
  | 0, _ => .error .outOfGas
  | _ + 1, [] => .error .indexError
  | fuel + 1, t :: ts =>
    if t = ")" then .ok ([], ts)
    else do
      let (e, ts2) ← readExpr fuel (t :: ts)
      let (es, ts3) ← readListItems fuel ts2
      .ok (e :: es, ts3)
  termination_by structural fuel

end

/-- parse (lines 110-112): tokenize, then read one expression.  Tokens
after the first complete expression are left unread, as in the source.
Each reader step consumes at least one token before recursing, so the
fuel below is never exhausted. -/
def parse (program : String) : Except Err Expr :=
  let toks := tokenize program
  match readExpr (2 * toks.length + 2) toks with
  | .ok (e, _) => .ok e
  | .error e => .error e

mutual

/-- schemestr (lines 184-189): a list renders parenthesized and
space-separated, recursively; atoms render via Python str().  str() of a
float (shortest round-trip decimal), a Procedure or a builtin (object
reprs with addresses) is host behaviour no claim renders; those cases
carry fixed placeholders. -/
def schemestr : Value → String
  | .list vs => "(" ++ schemestrList vs ++ ")"
  | .int n => toString n
  | .float _ => "<float>"
  | .bool b => if b then "True" else "False"
  | .sym s => s
  | .noneVal => "None"
  | .closure _ _ _ => "<Procedure>"
  | .prim _ => "<built-in>"

/-- The space-separated join " ".join(map(schemestr, exp)) of line 187. -/
def schemestrList : List Value → String
  | [] => ""
  | [v] => schemestr v
  | v :: vs => schemestr v ++ " " ++ schemestrList vs

end

/-- Evaluate a sequence of top-level expressions in order, threading the
heap, and return the last value — the behaviour of feeding the
expressions one per line to the repl (lines 191-196).  A test harness for
the multi-expression scenarios of the spec. -/
def runSeq (gas depth : Nat) : List Expr → Nat → Heap → Except Err (Value × Heap)
  | [], _, h => .ok (.noneVal, h)
  | [e], r, h => evaluate gas depth e r h
  | e :: es, r, h => do
    let (_, h2) ← evaluate gas depth e r h
    runSeq gas depth es r h2

/-- Parse every string of a program. -/
def parseAll : List String → Except Err (List Expr)
  | [] => .ok []
  | s :: ss => do
    let e ← parse s
    let es ← parseAll ss
    .ok (e :: es)

/-- Parse and evaluate a sequence of source lines against a fresh standard
environment, returning the final value. -/
def runProgram (gas depth : Nat) (lines : List String) : Except Err Value := do
  let es ← parseAll lines
  let (v, _) ← runSeq gas depth es 0 stdHeap
  .ok v

/-- Parse and evaluate one source line, returning value and final heap. -/
def runLine (gas depth : Nat) (s : String) : Except Err (Value × Heap) := do
  let e ← parse s
  evaluate gas depth e 0 stdHeap

/-
The canonical self-tail-recursive program of the spec's tail-call
property: (define down (lambda (n) (if (< n 1) 0 (down (- n 1))))), then
(down N) for an arbitrary iteration count N.
-/

/-- The test (< n 1) of the countdown body. -/
def downTest : Expr := .list [.sym "<", .sym "n", .int 1]

/-- The recursive tail call (down (- n 1)). -/
def downStep : Expr := .list [.sym "down", .list [.sym "-", .sym "n", .int 1]]

/-- The body (if (< n 1) 0 (down (- n 1))). -/
def downBody : Expr := .list [.sym "if", downTest, .int 0, downStep]

/-- The full definition form for the countdown procedure. -/
def downDefine : Expr :=
  .list [.sym "define", .sym "down", .list [.sym "lambda", .list [.sym "n"], downBody]]

/-- The closure value stored under "down": one parameter n, the countdown
body, the global environment (heap reference 0). -/
def downClos : Value := .closure (.list [.sym "n"]) downBody 0

/-- The global frame after evaluating `downDefine`: the standard table with
"down" appended. -/
def gEnv1 : Frame := ⟨stdBindings ++ [(.sym "down", downClos)], Option.none⟩

/-- One frame of the countdown loop: parameter n bound to the current
counter, outer environment the global frame. -/
def downFrame (k : Int) : Frame := ⟨[(.sym "n", .int k)], some 0⟩

/-- Canonical form of a hashable dict key: numbers (int or float) by their
exact rational value — Python hashes ints and equal floats alike — and
strings by themselves; a list key has no canonical form (unhashable).
`keyEq` is exactly equality of canonical forms, which makes it an
equivalence on hashable keys. -/
def keyNorm : Expr → Option (Rat ⊕ String)
  | .int n => some (.inl (n : Rat))
  | .float q => some (.inl q)
  | .sym s => some (.inr s)
  | .list _ => Option.none

/-- Declarative specification of Env.find: `FindSpec h k r rf` says that
walking the outer chain from r, the first frame whose dict contains k is
rf — every frame passed on the way does not contain k. -/
inductive FindSpec (h : Heap) (k : Expr) : Nat → Nat → Prop
  | here (r : Nat) (fr : Frame) (hr : h[r]? = some fr)
      (hmem : dictHas k fr.bindings = true) : FindSpec h k r r
  | outer (r r2 rf : Nat) (fr : Frame) (hr : h[r]? = some fr)
      (hmiss : dictHas k fr.bindings = false) (ho : fr.outer = some r2)
      (hrec : FindSpec h k r2 rf) : FindSpec h k r rf

/-
Lemmas about environment lookup, used to run the evaluator symbolically
over a heap that is known only through hypotheses.
-/

/-- Reduction of the Except monad bind on a success value. -/
theorem okBind {α β : Type} (a : α) (f : α → Except Err β) :
    (Except.ok a >>= f) = f a := rfl

/-- Reduction of the Except monad bind on an error value. -/
theorem errBind {α β : Type} (e : Err) (f : α → Except Err β) :
    ((Except.error e : Except Err α) >>= f) = .error e := rfl

/-- Env.find succeeds immediately at a frame whose dict has the key. -/
theorem findRef_found (f : Nat) {h : Heap} {r : Nat} {k : Expr} {fr : Frame}
    (hr : h[r]? = some fr) (hk : hashableKey k = true)
    (hmem : dictHas k fr.bindings = true) :
    findRef (f + 1) h r k = .ok r := by
  simp [findRef, hr, hk, hmem]

/-- Env.find steps to the outer environment on a miss. -/
theorem findRef_miss (f : Nat) {h : Heap} {r r2 : Nat} {k : Expr} {fr : Frame}
    (hr : h[r]? = some fr) (hk : hashableKey k = true)
    (hmiss : dictHas k fr.bindings = false) (hout : fr.outer = some r2) :
    findRef (f + 1) h r k = findRef f h r2 k := by
  simp [findRef, hr, hk, hmiss, hout]

/-- Variable reference resolved in the frame itself. -/
theorem lookupVar_here {h : Heap} {r : Nat} {s : String} {fr : Frame} {v : Value}
    (hr : h[r]? = some fr) (hget : dictGet (.sym s) fr.bindings = some v) :
    lookupVar h r s = .ok v := by
  have hf : findRef (h.length + 1) h r (.sym s) = .ok r :=
    findRef_found _ hr rfl (by simp [dictHas, hget])
  simp [lookupVar, hf, hr, hget, okBind]

/-- Variable reference that misses the frame and resolves in the root
environment (frame 0), one outer step away. -/
theorem lookupVar_outer {h : Heap} {r : Nat} {s : String} {fr fr0 : Frame} {v : Value}
    (hr : h[r]? = some fr) (hmiss : dictGet (.sym s) fr.bindings = Option.none)
    (hout : fr.outer = some 0) (h0 : h[0]? = some fr0)
    (hget : dictGet (.sym s) fr0.bindings = some v) :
    lookupVar h r s = .ok v := by
  obtain ⟨m, hm⟩ : ∃ m, h.length = m + 1 := by
    cases h with
    | nil => simp at h0
    | cons a as => exact ⟨as.length, rfl⟩
  have h1 : findRef (h.length + 1) h r (.sym s) = findRef h.length h 0 (.sym s) :=
    findRef_miss _ hr rfl (by simp [dictHas, hmiss]) hout
  have h2 : findRef h.length h 0 (.sym s) = .ok 0 := by
    rw [hm]
    exact findRef_found _ h0 rfl (by simp [dictHas, hget])
  simp [lookupVar, h1, h2, h0, hget, okBind]



/-- The "<" entry of the post-define global frame. -/
theorem gEnv1_lt : dictGet (.sym "<") gEnv1.bindings = some (.prim .lt) := rfl

/-- The "-" entry of the post-define global frame. -/
theorem gEnv1_sub : dictGet (.sym "-") gEnv1.bindings = some (.prim .sub) := rfl

/-- The "down" entry of the post-define global frame. -/
theorem gEnv1_down : dictGet (.sym "down") gEnv1.bindings = some downClos := rfl

set_option maxHeartbeats 2000000 in
/-- Running the countdown body with counter k at constant evaluator depth 2
terminates with the base value 0, for every k, with gas linear in k.  The
heap is arbitrary as long as frame 0 is the post-define global frame and
the current frame binds n to k: this is exactly the shape of every heap
the trampoline produces while looping. -/
theorem downBody_runs : ∀ (k : Nat) (h : Heap) (r : Nat),
    h[0]? = some gEnv1 → h[r]? = some (downFrame (k : Int)) →
    ∃ h2, evaluate (2 * k + 7) 2 downBody r h = .ok (.int 0, h2) := by
  intro k
  induction k with
  | zero =>
    intro h r h0 hr
    have hn : lookupVar h r "n" = .ok (.int 0) := lookupVar_here hr rfl
    have hlt : lookupVar h r "<" = .ok (.prim .lt) := lookupVar_outer hr rfl rfl h0 gEnv1_lt
    refine ⟨h, ?_⟩
    simp [downBody, downTest, downStep, evaluate, evalElems, callValue, hn, hlt,
      okBind, errBind, primApply, primLt, truthy]
  | succ k ih =>
    intro h r h0 hr
    have hn : lookupVar h r "n" = .ok (.int ((k : Int) + 1)) := by
      have : ((k + 1 : Nat) : Int) = (k : Int) + 1 := by push_cast; ring
      rw [← this]
      exact lookupVar_here hr (by rw [downFrame]; rfl)
    have hlt : lookupVar h r "<" = .ok (.prim .lt) := lookupVar_outer hr rfl rfl h0 gEnv1_lt
    have hsub : lookupVar h r "-" = .ok (.prim .sub) := lookupVar_outer hr rfl rfl h0 gEnv1_sub
    have hdown : lookupVar h r "down" = .ok downClos := lookupVar_outer hr rfl rfl h0 gEnv1_down
    have hpos : 0 < h.length := by
      cases h with
      | nil => simp at h0
      | cons a as => simp
    have h0b : (h ++ [downFrame (k : Int)])[0]? = some gEnv1 := by
      rw [List.getElem?_append_left hpos]
      exact h0
    have hrb : (h ++ [downFrame (k : Int)])[h.length]? = some (downFrame (k : Int)) :=
      List.getElem?_concat_length h (downFrame (k : Int))
    obtain ⟨h3, hrun⟩ := ih (h ++ [downFrame (k : Int)]) h.length h0b hrb
    have hfalse : decide (((k : Int) + 1) < 1) = false := by simp
    have harg : ((k : Int) + 1) - 1 = (k : Int) := by ring
    refine ⟨h3, ?_⟩
    have hgas : 2 * (k + 1) + 7 = 2 * k + 9 := by ring
    rw [hgas]
    simp [downBody, downTest, downStep, evaluate, evalElems, callValue, hn, hlt, hsub,
      hdown, okBind, errBind, primApply, primLt, primSub, intVal, truthy, hfalse, harg,
      downClos, envInit, zipParams, insertPairs, dictSet, downFrame] at hrun ⊢
    exact hrun

set_option maxHeartbeats 2000000 in
/-- C1: the evaluator's main loop handles the selected branch of an `if`
and the application of a Closure by rewriting the current
(expression, environment) pair and continuing the loop, not by a recursive
`evaluate` call, so a self-tail-recursive closure runs in constant
additional call-stack depth for every iteration count and terminates with
the base-case value.  Formally, for the canonical countdown procedure:
the source text parses into `downDefine`; evaluating the define extends
the global environment with the countdown closure; and for every iteration
count N, the call (down N) evaluates to the base value 0 at the fixed
recursion depth 2 — independent of N — with loop fuel only linear in N.
The recursion-depth fuel models the host call stack, so depth 2 for all N
is the claim's O(1) stack bound. -/
theorem c1_tail_call_constant_stack :
    (parse "(define down (lambda (n) (if (< n 1) 0 (down (- n 1)))))" = .ok downDefine)
    ∧ (evaluate 9 9 downDefine 0 stdHeap = .ok (.noneVal, [gEnv1]))
    ∧ ∀ N : Nat, ∃ h2,
        evaluate (2 * N + 8) 2 (.list [.sym "down", .int (N : Int)]) 0 [gEnv1] =
          .ok (.int 0, h2) := by
  refine ⟨rfl, rfl, ?_⟩
  intro N
  have hdown : lookupVar [gEnv1] 0 "down" = .ok downClos := lookupVar_here rfl gEnv1_down
  have hrb : ([gEnv1] ++ [downFrame (N : Int)])[1]? = some (downFrame (N : Int)) := rfl
  obtain ⟨h2, hrun⟩ := downBody_runs N ([gEnv1] ++ [downFrame (N : Int)]) 1 rfl hrb
  refine ⟨h2, ?_⟩
  simp [evaluate, evalElems, callValue, hdown, okBind, errBind, downClos, envInit,
    zipParams, insertPairs, dictSet, downFrame] at hrun ⊢
  exact hrun

/-- C2: the spec and the source's own docstring (lines 142-143) promise
that (quote exp) returns exp itself, rendering "(+ 1 2)"; but line 167
returns `x[1:]` — the one-element list containing the operand — so the
quoted form renders as "((+ 1 2))".  This theorem evaluates the code at
the failing input: the parse is as expected, yet the rendered result has
an extra layer of parentheses. -/
theorem c2_quote_wraps_operand_in_list :
    (parse "(quote (+ 1 2))" =
      .ok (.list [.sym "quote", .list [.sym "+", .int 1, .int 2]]))
    ∧ ((runLine 9 9 "(quote (+ 1 2))").map (fun p => schemestr p.1) = .ok "((+ 1 2))")
    ∧ "((+ 1 2))" ≠ "(+ 1 2)" := by
  refine ⟨rfl, rfl, by decide⟩

/-- C3: a name bound in no scope of the chain does not produce a defined
UnboundVariable error: Env.find (line 18) recurses onto `self.outer`
unguarded, and at the root environment `outer` is None, so the lookup
dereferences past the root and raises the host's AttributeError — both
for a variable reference and for a set! assignment target. -/
theorem c3_unbound_name_attribute_error :
    (runLine 9 9 "nosuchvar" = .error .attributeError)
    ∧ (runLine 9 9 "(set! nosuchvar 1)" = .error .attributeError)
    ∧ (findRef 2 stdHeap 0 (.sym "nosuchvar") = .error .attributeError) := by
  refine ⟨rfl, rfl, rfl⟩

/-- C4 counterexample: the claim says every exhaustion of the token stream
inside an incomplete form raises SyntaxError, in particular parse("(");
but the reader's loop guard indexes `tokens[0]` on an exhausted stream
(line 91), so parse("(") raises the host IndexError, which is a different
error constructor than any SyntaxError. -/
theorem c4_incomplete_form_cex :
    parse "(" = .error .indexError
    ∧ (Err.indexError = Err.syntaxError "unexpected EOF") = False
    ∧ (Err.indexError = Err.syntaxError "unexpected )") = False := by
  refine ⟨rfl, by simp, by simp⟩

/-- C4 as amended: an empty input or a token stream exhausted before the
first token of a form raises SyntaxError "unexpected EOF" (line 87), and a
close-parenthesis with no matching open raises SyntaxError "unexpected )"
(line 96); but a stream exhausted in the middle of an open list raises the
host IndexError (the unguarded `tokens[0]` of line 91), not SyntaxError. -/
theorem c4_parse_error_taxonomy :
    (parse "" = .error (.syntaxError "unexpected EOF"))
    ∧ (parse ")" = .error (.syntaxError "unexpected )"))
    ∧ (parse "(" = .error .indexError)
    ∧ (parse "(+ 1" = .error .indexError)
    ∧ (parse "((a b)" = .error .indexError)
    ∧ ∀ toks : List String, readExpr 0 toks = .error .outOfGas := by
  refine ⟨rfl, rfl, rfl, rfl, rfl, fun toks => by simp [readExpr]⟩

/-- C5 counterexample: the claim says a Closure applied to the wrong
argument count fails with an ArityMismatch error with no silent
truncation; but Env.__init__ zips parameters with arguments (line 13), so
the two extra arguments here are silently dropped and the call returns 42
instead of failing. -/
theorem c5_closure_arity_cex :
    runProgram 20 5 ["((lambda (x) 42) 1 2)"] = .ok (.int 42) := rfl

/-- C5 as amended: a special form `if`/`define`/`set!`/`lambda` with the
wrong operand count fails with the host ValueError (tuple unpacking, lines
160/163/169/173) — not a defined ArityMismatch — and a Closure applied to
the wrong argument count raises no error at all: `zip` truncates to the
shorter of the parameter and argument lists, silently dropping extra
arguments and leaving missing parameters unbound. -/
theorem c5_arity_behaviour :
    (runLine 9 9 "(if 1 2)" = .error .valueError)
    ∧ (runLine 9 9 "(if 1 2 3 4)" = .error .valueError)
    ∧ (runLine 9 9 "(define x)" = .error .valueError)
    ∧ (runLine 9 9 "(set! x)" = .error .valueError)
    ∧ (runLine 9 9 "(lambda (x))" = .error .valueError)
    ∧ (runProgram 20 5 ["((lambda (x) 42) 1 2)"] = .ok (.int 42))
    ∧ (runProgram 20 5 ["((lambda (x y) 5) 1)"] = .ok (.int 5))
    ∧ (zipParams (.list [.sym "x"]) [.int 1, .int 2] = .ok [(.sym "x", .int 1)]) := by
  refine ⟨rfl, rfl, rfl, rfl, rfl, rfl, rfl, rfl⟩

/-- C8 counterexample: the claim says the falsy values are exactly boolean
false, 0, 0.0 and the empty sequence; but Python's None — the value of a
`define` form — is also falsy, so a test value the claim calls truthy
selects the alternative: the result is 20 where the claim requires 10. -/
theorem c8_none_falsy_cex :
    runProgram 20 5 ["(if (define t 1) 10 20)"] = .ok (.int 20)
    ∧ truthy .noneVal = false := ⟨rfl, rfl⟩

/-- C8 as amended: (if test conseq alt) evaluates the test once and
continues with conseq exactly when the test value is truthy, where the
falsy values are exactly boolean false, numeric zero (int 0 and float
0.0), the empty sequence, the empty symbol, and None (the host truthiness
of every value the interpreter can produce); (if (> 3 2) 1 2) returns 1,
and the unselected branch is never evaluated — here the alternative is an
unbound variable whose evaluation would crash, yet the form returns 1. -/
theorem c8_truthiness :
    (∀ v : Value, truthy v = false ↔
      (v = .bool false ∨ v = .int 0 ∨ v = .float 0 ∨ v = .sym "" ∨
        v = .list [] ∨ v = .noneVal))
    ∧ (runProgram 20 5 ["(if (> 3 2) 1 2)"] = .ok (.int 1))
    ∧ (runProgram 20 5 ["(if (> 3 2) 1 nosuchvar)"] = .ok (.int 1))
    ∧ (runProgram 20 5 ["(if 0 nosuchvar 7)"] = .ok (.int 7)) := by
  refine ⟨?_, rfl, rfl, rfl⟩
  intro v
  cases v <;> simp [truthy]

/-- C9: the evaluator dispatches on every non-atom expression by indexing
its first element with no emptiness check (line 159 reads x[0]), so
evaluating the parse of "()" — the empty sequence — raises the host
IndexError, which belongs to none of the spec's error taxonomy
(SyntaxError, UnboundVariable, ArityMismatch, NotCallable). -/
theorem c9_empty_form_index_error :
    (parse "()" = .ok (.list []))
    ∧ (∀ (g d r : Nat) (h : Heap), evaluate (g + 1) d (.list []) r h = .error .indexError)
    ∧ (runProgram 20 5 ["()"] = .error .indexError) :=
  ⟨rfl, fun _ _ _ _ => rfl, rfl⟩

/-- C6: applying a user-defined Closure binds its parameters in a new
child environment parented at the environment captured when the lambda
was evaluated — lexical scoping, never the caller's environment.  The
first conjunct is general: every call frame Env.__init__ builds carries
`some envr` for the closure's captured reference (the evaluator passes
exactly `proc.env`, line 180, in both the trampoline branch and
Procedure.__call__).  The scenarios witness the observable consequences:
a closure capturing the global x returns 5 although the call site rebinds
x to 99; and two closures created in one `mk` call frame share set!
mutations of that frame (10 + 5 read back as 15). -/
theorem c6_lexical_scoping :
    (∀ (params : Expr) (args : List Value) (envr : Nat) (fr : Frame),
      envInit params args (some envr) = .ok fr → fr.outer = some envr)
    ∧ (runProgram 200 5
        ["(define x 5)", "(define f (lambda (y) x))", "((lambda (x) (f 0)) 99)"] =
        .ok (.int 5))
    ∧ (runProgram 400 6
        ["(define mk (lambda (s) (list (lambda (d) (set! s (+ s d))) (lambda (z) s))))",
         "(define pr (mk 10))", "((car pr) 5)", "((car (cdr pr)) 0)"] =
        .ok (.int 15)) := by
  refine ⟨?_, rfl, rfl⟩
  intro params args envr fr hfr
  unfold envInit at hfr
  cases hzp : zipParams params args with
  | error e => rw [hzp] at hfr; simp [errBind] at hfr
  | ok prs =>
    rw [hzp, okBind] at hfr
    cases hip : insertPairs [] prs with
    | error e => rw [hip] at hfr; simp [errBind] at hfr
    | ok b =>
      rw [hip, okBind] at hfr
      cases hfr
      rfl

/-- Witness for C6 at a concrete call frame. -/
theorem c6_lexical_scoping_witness :
    (envInit (.list [.sym "a"]) [.int 7] (some 3) = .ok ⟨[(.sym "a", .int 7)], some 3⟩)
    ∧ (⟨[(.sym "a", .int 7)], some 3⟩ : Frame).outer = some 3 :=
  ⟨rfl, c6_lexical_scoping.1 (.list [.sym "a"]) [.int 7] 3 ⟨[(.sym "a", .int 7)], some 3⟩ rfl⟩

/-- C10: invoking a Closure through its callable interface — `proc(*args)`
as the host primitives apply and map do, embedded as `callValue`, which
runs Procedure.__call__ (lines 27-28) — evaluates the closure's body in a
new Env binding its params to the args with the captured env as parent,
exactly the configuration the evaluator's in-loop trampoline path
(lines 178-180) continues with; both paths therefore return the same
value.  The scenario conjuncts run one squaring closure down both paths
and obtain 25 twice. -/
theorem c10_call_interface_matches_trampoline :
    (∀ (gas d : Nat) (params body : Expr) (envr : Nat) (args : List Value)
        (h : Heap) (fr : Frame), envInit params args (some envr) = .ok fr →
      callValue (gas + 1) (d + 1) (.closure params body envr) args h =
        evaluate gas d body h.length (h ++ [fr]))
    ∧ (runProgram 40 5 ["((lambda (x) (* x x)) 5)"] = .ok (.int 25))
    ∧ (callValue 40 5 (.closure (.list [.sym "x"]) (.list [.sym "*", .sym "x", .sym "x"]) 0)
        [.int 5] stdHeap =
        .ok (.int 25, stdHeap ++ [⟨[(.sym "x", .int 5)], some 0⟩])) := by
  refine ⟨?_, rfl, rfl⟩
  intro gas d params body envr args h fr hfr
  simp [callValue, hfr]

/-- Witness for C10 at a concrete closure call. -/
theorem c10_call_interface_witness :
    (envInit (.list [.sym "x"]) [.int 5] (some 0) = .ok ⟨[(.sym "x", .int 5)], some 0⟩)
    ∧ callValue 8 4 (.closure (.list [.sym "x"]) (.sym "x") 0) [.int 5] stdHeap =
        evaluate 7 3 (.sym "x") stdHeap.length (stdHeap ++ [⟨[(.sym "x", .int 5)], some 0⟩]) :=
  ⟨rfl, c10_call_interface_matches_trampoline.1 7 3 (.list [.sym "x"]) (.sym "x") 0
    [.int 5] stdHeap ⟨[(.sym "x", .int 5)], some 0⟩ rfl⟩

/-- Key equality is equality of canonical forms. -/
theorem keyEq_iff_norm (a b : Expr) :
    keyEq a b = true ↔ ∃ x, keyNorm a = some x ∧ keyNorm b = some x := by
  cases a <;> cases b <;> simp [keyEq, keyNorm] <;> exact eq_comm

/-- Key equality is reflexive on hashable keys. -/
theorem keyEq_refl {k : Expr} (hk : hashableKey k = true) : keyEq k k = true := by
  cases k with
  | int n => simp [keyEq]
  | float q => simp [keyEq]
  | sym s => simp [keyEq]
  | list es => simp [hashableKey] at hk

/-- Key equality is symmetric. -/
theorem keyEq_symm {a b : Expr} (hab : keyEq a b = true) : keyEq b a = true := by
  rw [keyEq_iff_norm] at hab ⊢
  obtain ⟨x, h1, h2⟩ := hab
  exact ⟨x, h2, h1⟩

/-- Key equality is transitive (euclidean form). -/
theorem keyEq_trans {a b c : Expr} (hab : keyEq a b = true) (hac : keyEq a c = true) :
    keyEq b c = true := by
  rw [keyEq_iff_norm] at hab hac ⊢
  obtain ⟨x, h1, h2⟩ := hab
  obtain ⟨y, h3, h4⟩ := hac
  rw [h1] at h3
  cases h3
  exact ⟨x, h2, h4⟩

/-- After `d[k] = v`, the key k maps to v. -/
theorem dictGet_dictSet_same {k : Expr} (v : Value) (l : List (Expr × Value))
    (hkk : keyEq k k = true) : dictGet k (dictSet k v l) = some v := by
  induction l with
  | nil => simp [dictSet, dictGet, hkk]
  | cons p rest ih =>
    obtain ⟨k2, v2⟩ := p
    by_cases hc : keyEq k2 k = true
    · simp [dictSet, hc, dictGet]
    · simp [dictSet, hc, dictGet, ih]

/-- After `d[k] = v`, every other key maps as before. -/
theorem dictGet_dictSet_other {k k2 : Expr} (v : Value) (l : List (Expr × Value))
    (hne : keyEq k k2 = false) : dictGet k2 (dictSet k v l) = dictGet k2 l := by
  induction l with
  | nil => simp [dictSet, dictGet, hne]
  | cons p rest ih =>
    obtain ⟨k3, v3⟩ := p
    by_cases hc : keyEq k3 k = true
    · have h32 : keyEq k3 k2 = false := by
        by_contra hx
        have h32t : keyEq k3 k2 = true := by simpa using hx
        have : keyEq k k2 = true := keyEq_trans hc h32t
        rw [this] at hne
        cases hne
      simp [dictSet, hc, dictGet, h32]
    · simp [dictSet, hc, dictGet, ih]

/-- Overwriting a key that is already present changes no key list: the
dict has exactly the same keys in the same order afterwards. -/
theorem dictSet_keys_of_has {k : Expr} (v : Value) (l : List (Expr × Value))
    (hhas : dictHas k l = true) :
    (dictSet k v l).map Prod.fst = l.map Prod.fst := by
  induction l with
  | nil => simp [dictHas, dictGet] at hhas
  | cons p rest ih =>
    obtain ⟨k2, v2⟩ := p
    by_cases hc : keyEq k2 k = true
    · simp [dictSet, hc]
    · have hrest : dictHas k rest = true := by
        simp [dictHas, dictGet, hc] at hhas
        simp [dictHas, hhas]
      simp [dictSet, hc, ih hrest]

/-- Soundness of Env.find against its declarative specification: when the
traversal returns a frame reference, that frame is the innermost one on
the outer chain whose dict contains the key. -/
theorem findRef_spec : ∀ (f : Nat) (h : Heap) (r : Nat) (k : Expr) (rf : Nat),
    findRef f h r k = .ok rf → FindSpec h k r rf := by
  intro f
  induction f with
  | zero => intro h r k rf hf; simp [findRef] at hf
  | succ f ih =>
    intro h r k rf hf
    simp only [findRef] at hf
    by_cases hk : hashableKey k = false
    · simp [hk] at hf
    · simp [hk] at hf
      cases hr : h[r]? with
      | none => rw [hr] at hf; simp at hf
      | some fr =>
        rw [hr] at hf
        simp only at hf
        by_cases hm : dictHas k fr.bindings = true
        · simp [hm] at hf
          cases hf
          exact .here r fr hr hm
        · simp [hm] at hf
          cases ho : fr.outer with
          | none => rw [ho] at hf; simp at hf
          | some r2 =>
            rw [ho] at hf
            simp only at hf
            exact .outer r r2 rf fr hr (by simpa using hm) ho (ih h r2 k rf hf)

/-- The frame Env.find designates does contain the key. -/
theorem FindSpec_binds {h : Heap} {k : Expr} {r rf : Nat} (hs : FindSpec h k r rf) :
    ∃ fr, h[rf]? = some fr ∧ dictHas k fr.bindings = true := by
  induction hs with
  | here r fr hr hmem => exact ⟨fr, hr, hmem⟩
  | outer r r2 rf fr hr hmiss ho hrec ih => exact ih

/-- C7: `define` (line 164) inserts or overwrites the binding only in the
current frame — every other frame of the heap is untouched, no frame is
created, the written key now maps to the new value and every other key of
the current frame maps as before; `set!` (line 170) mutates in place the
innermost frame of the chain that already binds the name (`FindSpec` is
the innermost-binder specification, established for Env.find by
`findRef_spec`), touches no other frame, and never creates a binding: the
updated frame's key list is unchanged. -/
theorem c7_define_assign_frame_effects :
    (∀ (h : Heap) (r : Nat) (k : Expr) (v : Value) (h2 : Heap),
      envDefine h r k v = .ok h2 →
      h2.length = h.length
      ∧ (∀ i, i ≠ r → h2[i]? = h[i]?)
      ∧ ∃ fr, h[r]? = some fr
          ∧ h2[r]? = some ⟨dictSet k v fr.bindings, fr.outer⟩
          ∧ dictGet k (dictSet k v fr.bindings) = some v
          ∧ ∀ k2, keyEq k k2 = false →
              dictGet k2 (dictSet k v fr.bindings) = dictGet k2 fr.bindings)
    ∧ (∀ (h : Heap) (r : Nat) (k : Expr) (v : Value) (h2 : Heap),
      envAssign h r k v = .ok h2 →
      h2.length = h.length
      ∧ ∃ rf fr, FindSpec h k r rf
        ∧ h[rf]? = some fr ∧ dictHas k fr.bindings = true
        ∧ h2 = h.set rf ⟨dictSet k v fr.bindings, fr.outer⟩
        ∧ (∀ i, i ≠ rf → h2[i]? = h[i]?)
        ∧ (dictSet k v fr.bindings).map Prod.fst = fr.bindings.map Prod.fst) := by
  constructor
  · intro h r k v h2 hdef
    unfold envDefine at hdef
    by_cases hk : hashableKey k = false
    · simp [hk] at hdef
    · simp only [hk, if_false, Bool.false_eq_true] at hdef
      cases hr : h[r]? with
      | none => rw [hr] at hdef; cases hdef
      | some fr =>
        rw [hr] at hdef
        simp only at hdef
        cases hdef
        have hkt : hashableKey k = true := by simpa using hk
        have hlt : r < h.length := by
          obtain ⟨hl, -⟩ := List.getElem?_eq_some.mp hr
          exact hl
        refine ⟨List.length_set h r _, ?_, ?_⟩
        · intro i hi
          exact List.getElem?_set_ne (fun hx => hi hx.symm)
        · refine ⟨fr, rfl, ?_, ?_, ?_⟩
          · rw [List.getElem?_set_self hlt]
          · exact dictGet_dictSet_same v fr.bindings (keyEq_refl hkt)
          · intro k2 hne
            exact dictGet_dictSet_other v fr.bindings hne
  · intro h r k v h2 hasg
    unfold envAssign at hasg
    cases hfind : findRef (h.length + 1) h r k with
    | error e => rw [hfind] at hasg; simp [errBind] at hasg
    | ok rf =>
      rw [hfind, okBind] at hasg
      have hspec : FindSpec h k r rf := findRef_spec _ h r k rf hfind
      obtain ⟨fr, hfr, hhas⟩ := FindSpec_binds hspec
      rw [hfr] at hasg
      simp only at hasg
      cases hasg
      refine ⟨List.length_set h rf _, rf, fr, hspec, hfr, hhas, rfl, ?_,
        dictSet_keys_of_has v fr.bindings hhas⟩
      intro i hi
      exact List.getElem?_set_ne (fun hx => hi hx.symm)

/-- Witness for C7: a define into and a set! of a binding of the concrete
root environment. -/
theorem c7_define_assign_witness :
    (envDefine [stdFrame] 0 (.sym "w") (.int 1) =
      .ok [⟨dictSet (.sym "w") (.int 1) stdBindings, Option.none⟩])
    ∧ ([⟨dictSet (.sym "w") (.int 1) stdBindings, Option.none⟩] : Heap).length =
        ([stdFrame] : Heap).length
    ∧ (envAssign [stdFrame] 0 (.sym "+") (.int 9) =
      .ok [⟨dictSet (.sym "+") (.int 9) stdBindings, Option.none⟩])
    ∧ ([⟨dictSet (.sym "+") (.int 9) stdBindings, Option.none⟩] : Heap).length =
        ([stdFrame] : Heap).length := by
  refine ⟨rfl, ?_, rfl, ?_⟩
  · exact (c7_define_assign_frame_effects.1 [stdFrame] 0 (.sym "w") (.int 1) _ rfl).1
  · exact (c7_define_assign_frame_effects.2 [stdFrame] 0 (.sym "+") (.int 9) _ rfl).1

/-- Sanity scenario from the spec: arithmetic application evaluates
left-to-right through the primitive table. -/
theorem sanity_arithmetic : runProgram 40 5 ["(+ 2 (* 3 4))"] = .ok (.int 14) := rfl

/-- Sanity scenario from the spec: a top-level define is visible to the
next expression evaluated in the same environment. -/
theorem sanity_define_then_use :
    runProgram 40 5 ["(define r 10)", "(* r r)"] = .ok (.int 100) := rfl

end Schempy
